import Mathlib

/-!
Verification of `src/predict.py`: a single-file CLI image classifier.
The script loads a Keras model (with a three-stage deserialization
fallback), loads a label list, preprocesses one image, runs one forward
pass and prints one JSON line.

Shallow embedding conventions:
* External libraries (PIL, numpy, tensorflow) are modelled through an
  `Env` of deterministic functions; fallible library calls return
  `Except String`.
* Python floats are modelled as rationals `ℚ`.
* `model.predict` on the 1-image batch is modelled as returning the
  flattened class vector (`np.argmax` / `np.max` flatten the 2-D
  `(1, n)` output, so only the flattened vector matters).
-/

namespace Predict

/-- An 8-bit channel value. -/
abbrev Byte := Fin 256

/-- A decoded RGB image (`PIL.Image` after `.convert("RGB")`):
a height × width grid of RGB byte triples. -/
structure RGBImage where
  height : Nat
  width : Nat
  pixel : Fin height → Fin width → Fin 3 → Byte

/-- The 4-D array produced by preprocessing: batch × row × column × channel. -/
abbrev Tensor4 := List (List (List (List ℚ)))

/-- External collaborators of the per-image pipeline:
`Image.open(...).convert("RGB")` (fallible decode), `img.resize((w, h))`
(PIL guarantees the result has exactly the requested size, expressed here
by the dependent return type), `model.predict` (fallible, returns the
flattened class vector), and the rendering of a Python float by
`json.dumps` (only its existence matters for the claims). -/
structure Env where
  openConvertRGB : String → Except String RGBImage
  resize : RGBImage → (w h : Nat) → Fin h → Fin w → Fin 3 → Byte
  predict : Tensor4 → Except String (List ℚ)
  showFloat : ℚ → String

/-- `np.array(img)` on an RGB PIL image: a height × width × 3 nested list. -/
def toArray (h w : Nat) (px : Fin h → Fin w → Fin 3 → Byte) :
    List (List (List Byte)) :=
  List.ofFn fun i : Fin h => List.ofFn fun j : Fin w => List.ofFn fun c : Fin 3 => px i j c

/-- `np.array(img) / 255.0`: elementwise scaling of the byte array. -/
def normalize3 (a : List (List (List Byte))) : List (List (List ℚ)) :=
  a.map fun plane => plane.map fun row => row.map fun b => (b.val : ℚ) / 255

/-- `np.expand_dims(img, axis=0)`: add a leading batch dimension of size 1. -/
def expandDims0 (t : List (List (List ℚ))) : Tensor4 := [t]

/-- `preprocess_image` from `src/predict.py`:
open and convert to RGB, resize to 224×224, scale by 1/255, add batch axis. -/
def preprocess_image (env : Env) (image_path : String) : Except String Tensor4 :=
  match env.openConvertRGB image_path with
  | .error e => .error e
  | .ok img => .ok (expandDims0 (normalize3 (toArray 224 224 (env.resize img 224 224))))

/-- First maximum of a rational list with its index: `some (i, m)` where `m`
is the maximum value and `i` the lowest index attaining it (`none` on `[]`).
This is the documented behaviour of `np.argmax` (first occurrence on ties)
and `np.max`, used in `analyze_image`. -/
def firstMax : List ℚ → Option (Nat × ℚ)
  | [] => none
  | x :: xs =>
    match firstMax xs with
    | none => some (0, x)
    | some (i, m) => if x < m then some (i + 1, m) else some (0, x)

/-- `int(np.argmax(preds))`: index of the first maximal entry;
raises on an empty array. -/
def npArgmax (l : List ℚ) : Except String Nat :=
  match firstMax l with
  | none => .error "attempt to get argmax of an empty sequence"
  | some im => .ok im.1

/-- `float(np.max(preds))`: the maximum entry; raises on an empty array. -/
def npMax (l : List ℚ) : Except String ℚ :=
  match firstMax l with
  | none => .error "zero-size array to reduction operation maximum which has no identity"
  | some im => .ok im.2

/-- Python list indexing `class_names[class_id]` with a non-negative index:
raises `IndexError` past the end. -/
def listIndex (l : List String) (i : Nat) : Except String String :=
  match l.get? i with
  | some s => .ok s
  | none => .error "list index out of range"

/-- The value returned by `analyze_image`: either the
`{"label": ..., "confidence": ...}` dict or the `{"error": ...}` dict. -/
inductive PredictionResult where
  | success (label : String) (confidence : ℚ)
  | failure (message : String)
  deriving DecidableEq, Repr

/-- The body of the `try:` block of `analyze_image`, as the sequence of
fallible steps it performs (each step is a strict precondition for the next). -/
def analyzePipeline (env : Env) (class_names : List String) (image_path : String) :
    Except String (String × ℚ) :=
  match preprocess_image env image_path with
  | .error e => .error e
  | .ok img =>
    match env.predict img with
    | .error e => .error e
    | .ok preds =>
      match npArgmax preds with
      | .error e => .error e
      | .ok class_id =>
        match npMax preds with
        | .error e => .error e
        | .ok confidence =>
          match listIndex class_names class_id with
          | .error e => .error e
          | .ok label => .ok (label, confidence)

/-- `analyze_image` from `src/predict.py`: run the pipeline; any exception
is caught at this boundary and stringified into `{"error": str(e)}`. -/
def analyze_image (env : Env) (class_names : List String) (image_path : String) :
    PredictionResult :=
  match analyzePipeline env class_names image_path with
  | .ok lc => .success lc.1 lc.2
  | .error e => .failure e

/-! JSON output: a model of `json.dumps` restricted to the two dict shapes
the script prints, with Python's default string escaping
(`ensure_ascii=True`): `\"`, `\\`, `\n`, `\t`, `\r`, `\b`, `\f`, `\uXXXX`
for other control characters and for all non-ASCII code points
(surrogate pairs beyond the BMP). -/

/-- A lower-case hexadecimal digit. -/
def hexDigit (n : Nat) : Char :=
  if n < 10 then Char.ofNat (48 + n) else Char.ofNat (87 + n)

/-- Four-digit lower-case hexadecimal rendering, as in `\uXXXX`. -/
def hex4 (n : Nat) : String :=
  String.mk [hexDigit (n / 4096 % 16), hexDigit (n / 256 % 16),
    hexDigit (n / 16 % 16), hexDigit (n % 16)]

/-- How `json.dumps` escapes one character of a string value. -/
def jsonEscapeChar (c : Char) : String :=
  if c = '"' then "\\\""
  else if c = '\\' then "\\\\"
  else if c = '\n' then "\\n"
  else if c = '\t' then "\\t"
  else if c = '\r' then "\\r"
  else if c = '\x08' then "\\b"
  else if c = '\x0c' then "\\f"
  else if c.toNat < 32 then "\\u" ++ hex4 c.toNat
  else if c.toNat < 127 then String.singleton c
  else if c.toNat < 65536 then "\\u" ++ hex4 c.toNat
  else
    "\\u" ++ hex4 (55296 + (c.toNat - 65536) / 1024) ++
      "\\u" ++ hex4 (56320 + (c.toNat - 65536) % 1024)

/-- `json.dumps` of a Python string. -/
def jsonString (s : String) : String :=
  "\"" ++ String.join (s.data.map jsonEscapeChar) ++ "\""

/-- `json.dumps` of the two dicts the script builds (Python dicts keep
insertion order; the default separators are `", "` and `": "`).
`showFloat` renders the confidence float. -/
def dumps (showFloat : ℚ → String) : PredictionResult → String
  | .success label confidence =>
    "\x7b\"label\": " ++ jsonString label ++ ", \"confidence\": " ++
      showFloat confidence ++ "\x7d"
  | .failure message => "\x7b\"error\": " ++ jsonString message ++ "\x7d"

/-- What a process run observably does in this model: the lines printed on
standard output and the exit status. -/
structure ProcOutput where
  stdout : List String
  exitCode : Nat
  deriving DecidableEq, Repr

/-- The `if __name__ == "__main__":` block of `src/predict.py`, after the
one-time model/label initialization has succeeded (its results are `env`
and `class_names`): if `len(sys.argv) < 2`, print the error JSON and exit
with status 1; otherwise analyze `sys.argv[1]`, print the result JSON and
fall off the end (exit status 0). -/
def mainProc (env : Env) (class_names : List String) : List String → ProcOutput
  | _prog :: image_path :: _ =>
    { stdout := [dumps env.showFloat (analyze_image env class_names image_path)]
      exitCode := 0 }
  | _ =>
    { stdout := [dumps env.showFloat (.failure "No image path provided")]
      exitCode := 1 }

/-! Model loading: `load_model_with_fallback` and the module-level
`MODEL_PATH` resolution. -/

/-- The three deserialization strategies available to
`load_model_with_fallback`, each a fallible external call:
`tf.keras.models.load_model`, standalone `keras.models.load_model`
(an `ImportError` of the `keras` package counts as a failure of this
strategy, like any other exception), and `tf.keras.models.load_model`
with the `custom_objects` compatibility shims. -/
structure LoadEnv (Model : Type) where
  tfLoad : String → Except String Model
  kerasLoad : String → Except String Model
  tfLoadCustom : String → Except String Model

/-- `load_model_with_fallback` from `src/predict.py`: nested
`try/except Exception` blocks trying the three strategies in order; when
the third also fails, raise a `RuntimeError` wrapping the last error and
naming the attempted path. -/
def load_model_with_fallback {Model : Type} (env : LoadEnv Model) (model_path : String) :
    Except String Model :=
  match env.tfLoad model_path with
  | .ok m => .ok m
  | .error _e_primary =>
    match env.kerasLoad model_path with
    | .ok m => .ok m
    | .error _ =>
      match env.tfLoadCustom model_path with
      | .ok m => .ok m
      | .error e_fallback =>
        .error ("Failed to load model '" ++ model_path ++
          "'. Tried tf.keras, keras and a fallback shim. Last error: " ++ e_fallback)

/-- Which strategies a run of `load_model_with_fallback` attempts, in
order (1 = tf.keras, 2 = keras, 3 = shim); derived from the same nested
`try/except` structure: a later strategy runs exactly when the previous
one raised. -/
def loadAttempts {Model : Type} (env : LoadEnv Model) (model_path : String) : List Nat :=
  match env.tfLoad model_path with
  | .ok _ => [1]
  | .error _ =>
    match env.kerasLoad model_path with
    | .ok _ => [1, 2]
    | .error _ => [1, 2, 3]

/-- `p.lower()`, for ASCII file names (model of `str.lower`). -/
def pyLower (s : String) : String := String.mk (s.data.map Char.toLower)

/-- `p.lower().endswith('.h5')`. -/
def endsWithH5 (p : String) : Bool := List.isSuffixOf ".h5".data (pyLower p).data

/-- The module-level `MODEL_PATH` resolution of `src/predict.py`:
if the configured path does not exist, list the current directory, keep
the names ending in `.h5` case-insensitively, and when there is at least
one, print a notice and substitute the first; otherwise keep the
configured path. Returns the resolved path and the printed lines.
`pathExists` models `os.path.exists` and `listing` models `os.listdir('.')`
(directory enumeration order). -/
def resolveModelPath (pathExists : String → Bool) (listing : List String)
    (configured : String) : String × List String :=
  if pathExists configured then (configured, [])
  else
    match listing.filter endsWithH5 with
    | [] => (configured, [])
    | c :: _ =>
      (c, ["MODEL_PATH " ++ configured ++ " not found; using first .h5 candidate: " ++ c])

/-! Label-list parsing: `class_names = [line.strip() for line in f.readlines()]`. -/

/-- Python `str.isspace` on the ASCII whitespace characters relevant to
`str.strip()` with no argument. -/
def isPySpace (c : Char) : Bool :=
  c = ' ' || c = '\t' || c = '\n' || c = '\r' || c = '\x0b' || c = '\x0c'

/-- `line.strip()`: remove leading and trailing whitespace. -/
def pyStrip (s : String) : String :=
  String.mk (((s.data.dropWhile isPySpace).reverse.dropWhile isPySpace).reverse)

/-- `line.rstrip()`: remove trailing whitespace only. -/
def pyRstrip (s : String) : String :=
  String.mk ((s.data.reverse.dropWhile isPySpace).reverse)

/-- Helper for `pyReadlines`: accumulate the current line (reversed). -/
def readlinesAux (acc : List Char) : List Char → List String
  | [] => if acc.isEmpty then [] else [String.mk acc.reverse]
  | c :: cs =>
    if c = '\n' then String.mk (acc.reverse ++ ['\n']) :: readlinesAux [] cs
    else readlinesAux (c :: acc) cs

/-- `f.readlines()` on the file content: split after each newline, keeping
the newline on each line; a final fragment without a newline is a line too. -/
def pyReadlines (content : String) : List String := readlinesAux [] content.data

/-- `class_names = [line.strip() for line in f.readlines()]` from
`src/predict.py`, as a function of the label file's content. -/
def parseClassNames (content : String) : List String :=
  (pyReadlines content).map pyStrip

/-- Modelled from the spec's words, for comparison with `parseClassNames`:
the spec says only *trailing* whitespace is stripped per line
("trailing whitespace stripped per line and nothing else removed"). -/
def parseClassNamesSpecTrailingOnly (content : String) : List String :=
  (pyReadlines content).map pyRstrip

/-! Helper lemmas about `firstMax` (the model of `np.argmax` / `np.max`)
and about the success case of `analyze_image`. -/

theorem firstMax_ne_none (x : ℚ) (xs : List ℚ) : firstMax (x :: xs) ≠ none := by
  simp only [firstMax]
  cases hxs : firstMax xs with
  | none => simp
  | some im =>
    obtain ⟨j, m⟩ := im
    by_cases hx : x < m <;> simp [hx]

theorem firstMax_get? {l : List ℚ} {i : Nat} {m : ℚ} (h : firstMax l = some (i, m)) :
    l.get? i = some m := by
  induction l generalizing i m with
  | nil => simp [firstMax] at h
  | cons x xs ih =>
    simp only [firstMax] at h
    cases hxs : firstMax xs with
    | none =>
      rw [hxs] at h
      dsimp only at h
      simp only [Option.some.injEq, Prod.mk.injEq] at h
      obtain ⟨hi, hm⟩ := h
      subst hi; subst hm
      rfl
    | some im =>
      obtain ⟨j, m'⟩ := im
      rw [hxs] at h
      dsimp only at h
      by_cases hx : x < m'
      · rw [if_pos hx] at h
        simp only [Option.some.injEq, Prod.mk.injEq] at h
        obtain ⟨hi, hm⟩ := h
        subst hi; subst hm
        simpa using ih hxs
      · rw [if_neg hx] at h
        simp only [Option.some.injEq, Prod.mk.injEq] at h
        obtain ⟨hi, hm⟩ := h
        subst hi; subst hm
        rfl

theorem firstMax_is_max {l : List ℚ} {i : Nat} {m : ℚ} (h : firstMax l = some (i, m)) :
    ∀ q ∈ l, q ≤ m := by
  induction l generalizing i m with
  | nil => simp [firstMax] at h
  | cons x xs ih =>
    simp only [firstMax] at h
    cases hxs : firstMax xs with
    | none =>
      rw [hxs] at h
      dsimp only at h
      have hnil : xs = [] := by
        cases xs with
        | nil => rfl
        | cons y ys => exact absurd hxs (firstMax_ne_none y ys)
      simp only [Option.some.injEq, Prod.mk.injEq] at h
      obtain ⟨_, hm⟩ := h
      subst hm
      simp [hnil]
    | some im =>
      obtain ⟨j, m'⟩ := im
      rw [hxs] at h
      dsimp only at h
      by_cases hx : x < m'
      · rw [if_pos hx] at h
        simp only [Option.some.injEq, Prod.mk.injEq] at h
        obtain ⟨_, hm⟩ := h
        subst hm
        intro q hq
        rcases List.mem_cons.mp hq with hq | hq
        · exact hq ▸ le_of_lt hx
        · exact ih hxs q hq
      · rw [if_neg hx] at h
        simp only [Option.some.injEq, Prod.mk.injEq] at h
        obtain ⟨_, hm⟩ := h
        subst hm
        intro q hq
        rcases List.mem_cons.mp hq with hq | hq
        · exact le_of_eq hq
        · exact le_trans (ih hxs q hq) (not_lt.mp hx)

theorem firstMax_lowest_index {l : List ℚ} {i : Nat} {m : ℚ}
    (h : firstMax l = some (i, m)) :
    ∀ j, j < i → ∀ q, l.get? j = some q → q < m := by
  induction l generalizing i m with
  | nil => simp [firstMax] at h
  | cons x xs ih =>
    simp only [firstMax] at h
    cases hxs : firstMax xs with
    | none =>
      rw [hxs] at h
      dsimp only at h
      simp only [Option.some.injEq, Prod.mk.injEq] at h
      obtain ⟨hi, _⟩ := h
      subst hi
      intro j hj
      exact absurd hj (Nat.not_lt_zero j)
    | some im =>
      obtain ⟨j', m'⟩ := im
      rw [hxs] at h
      dsimp only at h
      by_cases hx : x < m'
      · rw [if_pos hx] at h
        simp only [Option.some.injEq, Prod.mk.injEq] at h
        obtain ⟨hi, hm⟩ := h
        subst hi; subst hm
        intro j hj q hq
        cases j with
        | zero =>
          simp only [List.get?] at hq
          cases hq
          exact hx
        | succ k =>
          exact ih hxs k (Nat.lt_of_succ_lt_succ hj) q hq
      · rw [if_neg hx] at h
        simp only [Option.some.injEq, Prod.mk.injEq] at h
        obtain ⟨hi, _⟩ := h
        subst hi
        intro j hj
        exact absurd hj (Nat.not_lt_zero j)

/-- Inversion of a successful `analyze_image` run: given that preprocessing
and prediction succeeded, a `success` result determines an index `i` at
which `firstMax` found the maximum and the label list held the label. -/
theorem analyze_image_success_elim {env : Env} {class_names : List String}
    {image_path : String} {t : Tensor4} {preds : List ℚ} {lbl : String} {conf : ℚ}
    (hpre : preprocess_image env image_path = .ok t)
    (hpred : env.predict t = .ok preds)
    (hres : analyze_image env class_names image_path = .success lbl conf) :
    ∃ i, firstMax preds = some (i, conf) ∧ class_names.get? i = some lbl := by
  unfold analyze_image analyzePipeline at hres
  rw [hpre] at hres
  dsimp only at hres
  rw [hpred] at hres
  dsimp only at hres
  unfold npArgmax npMax listIndex at hres
  cases hfm : firstMax preds with
  | none => rw [hfm] at hres; dsimp only at hres; simp at hres
  | some im =>
    obtain ⟨i, m⟩ := im
    rw [hfm] at hres
    dsimp only at hres
    cases hget : class_names.get? i with
    | none => rw [hget] at hres; dsimp only at hres; simp at hres
    | some lbl' =>
      rw [hget] at hres
      dsimp only at hres
      simp only [PredictionResult.success.injEq] at hres
      obtain ⟨hl, hc⟩ := hres
      subst hl; subst hc
      exact ⟨i, rfl, hget⟩

/-! Concrete environments used by the witnesses and counterexamples:
they instantiate the external collaborators with small deterministic
stand-ins (a constant 1×1 black image, predictors returning fixed
vectors). -/

/-- A 1×1 all-black decoded image. -/
def imgConst : RGBImage := ⟨1, 1, fun _ _ _ => 0⟩

/-- A constant resize result: every pixel byte is 0. -/
def resizeConst : RGBImage → (w h : Nat) → Fin h → Fin w → Fin 3 → Byte :=
  fun _ _ _ => fun _ _ _ => 0

/-- The tensor `preprocess_image` produces in the constant environments. -/
def tConst : Tensor4 := expandDims0 (normalize3 (toArray 224 224 (fun _ _ _ => 0)))

/-- Environment whose predictor returns the spec's example vector
`[0.1, 0.7, 0.2]`. -/
def envDog : Env :=
  { openConvertRGB := fun _ => .ok imgConst
    resize := resizeConst
    predict := fun _ => .ok [1/10, 7/10, 2/10]
    showFloat := fun _ => "0.7" }

/-- Environment whose predictor returns the spec's tie example `[0.5, 0.5]`. -/
def envTie : Env :=
  { openConvertRGB := fun _ => .ok imgConst
    resize := resizeConst
    predict := fun _ => .ok [1/2, 1/2]
    showFloat := fun _ => "0.5" }

/-- Environment whose image decode fails, as for a missing file. -/
def envErr : Env :=
  { openConvertRGB := fun _ => .error "[Errno 2] No such file or directory: 'missing.png'"
    resize := resizeConst
    predict := fun _ => .ok [1]
    showFloat := fun _ => "1.0" }

/-- Environment whose predictor puts the maximum at index 0 of a width-2
vector. -/
def envShort : Env :=
  { openConvertRGB := fun _ => .ok imgConst
    resize := resizeConst
    predict := fun _ => .ok [9/10, 1/10]
    showFloat := fun _ => "0.9" }

/-- Environment whose predictor returns a raw (non-probability) output
larger than 1. -/
def envOver : Env :=
  { openConvertRGB := fun _ => .ok imgConst
    resize := resizeConst
    predict := fun _ => .ok [3/2]
    showFloat := fun _ => "1.5" }

/-- A `LoadEnv` in which all three deserialization strategies fail. -/
def loadEnvAllFail : LoadEnv Nat :=
  { tfLoad := fun _ => .error "bad marker in HDF5 file"
    kerasLoad := fun _ => .error "No module named 'keras'"
    tfLoadCustom := fun _ => .error "Unknown layer: DTypePolicy" }

/-- A `LoadEnv` in which tf.keras fails and standalone keras succeeds. -/
def loadEnvKerasOk : LoadEnv Nat :=
  { tfLoad := fun _ => .error "bad marker in HDF5 file"
    kerasLoad := fun _ => .ok 42
    tfLoadCustom := fun _ => .error "unused" }

/-! The claims. -/

/-- C1: For every successful run of `analyze_image` on a valid image (one
whose preprocessing and prediction succeed, yielding the vector `preds`),
the returned label is the label-list entry at the index of the
maximum-valued element of `preds`, the returned confidence is that
maximum value, and on exact ties the lowest index wins: the index `i`
carries the maximum (every entry is `≤` the confidence, and the entry at
`i` equals it) and every entry strictly before `i` is strictly below it. -/
theorem analyze_image_returns_argmax_label_and_max_confidence
    (env : Env) (class_names : List String) (image_path : String)
    (t : Tensor4) (preds : List ℚ) (lbl : String) (conf : ℚ)
    (hpre : preprocess_image env image_path = .ok t)
    (hpred : env.predict t = .ok preds)
    (hres : analyze_image env class_names image_path = .success lbl conf) :
    ∃ i, class_names.get? i = some lbl ∧ preds.get? i = some conf ∧
      (∀ q ∈ preds, q ≤ conf) ∧
      (∀ j, j < i → ∀ q, preds.get? j = some q → q < conf) := by
  obtain ⟨i, hfm, hget⟩ := analyze_image_success_elim hpre hpred hres
  exact ⟨i, hget, firstMax_get? hfm, firstMax_is_max hfm, firstMax_lowest_index hfm⟩

/-- Witness for C1 at the spec's two examples: `[0.1, 0.7, 0.2]` with
labels `["cat", "dog", "fish"]` yields `("dog", 0.7)`, and the tie
`[0.5, 0.5]` yields the label at index 0. -/
theorem analyze_image_returns_argmax_label_and_max_confidence_witness :
    analyze_image envDog ["cat", "dog", "fish"] "img.png" = .success "dog" (7/10) ∧
    analyze_image envTie ["cat", "dog"] "img.png" = .success "cat" (1/2) ∧
    (∃ i, ["cat", "dog", "fish"].get? i = some "dog" ∧
      ([1/10, 7/10, 2/10] : List ℚ).get? i = some (7/10) ∧
      (∀ q ∈ ([1/10, 7/10, 2/10] : List ℚ), q ≤ 7/10) ∧
      (∀ j, j < i → ∀ q, ([1/10, 7/10, 2/10] : List ℚ).get? j = some q → q < 7/10)) ∧
    (∃ i, ["cat", "dog"].get? i = some "cat" ∧
      ([1/2, 1/2] : List ℚ).get? i = some (1/2) ∧
      (∀ q ∈ ([1/2, 1/2] : List ℚ), q ≤ 1/2) ∧
      (∀ j, j < i → ∀ q, ([1/2, 1/2] : List ℚ).get? j = some q → q < 1/2)) := by
  have hdog : analyze_image envDog ["cat", "dog", "fish"] "img.png" = .success "dog" (7/10) := by
    norm_num [analyze_image, analyzePipeline, preprocess_image, envDog, npArgmax, npMax,
      firstMax, listIndex]
  have htie : analyze_image envTie ["cat", "dog"] "img.png" = .success "cat" (1/2) := by
    norm_num [analyze_image, analyzePipeline, preprocess_image, envTie, npArgmax, npMax,
      firstMax, listIndex]
  exact ⟨hdog, htie,
    analyze_image_returns_argmax_label_and_max_confidence envDog _ _ tConst _ _ _ rfl rfl hdog,
    analyze_image_returns_argmax_label_and_max_confidence envTie _ _ tConst _ _ _ rfl rfl htie⟩

/-- C2: Any error produced inside the pipeline (preprocessing, prediction,
argmax/max, label lookup) is caught at the boundary of `analyze_image`
and becomes a `failure` result carrying the message — it is never
propagated — and with an image-path argument present the process prints
exactly one JSON line (the dump of that result) and exits with code 0. -/
theorem analyze_image_catches_pipeline_errors
    (env : Env) (class_names : List String) (prog image_path : String)
    (rest : List String) :
    (∀ e, analyzePipeline env class_names image_path = .error e →
      analyze_image env class_names image_path = .failure e) ∧
    mainProc env class_names (prog :: image_path :: rest) =
      { stdout := [dumps env.showFloat (analyze_image env class_names image_path)]
        exitCode := 0 } := by
  constructor
  · intro e he
    unfold analyze_image
    rw [he]
  · rfl

/-- Witness for C2: a missing image file makes the pipeline fail, the
failure surfaces as an error result, and the process still prints one
JSON line and exits 0. -/
theorem analyze_image_catches_pipeline_errors_witness :
    analyzePipeline envErr [] "missing.png" =
      .error "[Errno 2] No such file or directory: 'missing.png'" ∧
    analyze_image envErr [] "missing.png" =
      .failure "[Errno 2] No such file or directory: 'missing.png'" ∧
    mainProc envErr [] ["predict.py", "missing.png"] =
      { stdout := [dumps envErr.showFloat (analyze_image envErr [] "missing.png")]
        exitCode := 0 } :=
  ⟨rfl,
    (analyze_image_catches_pipeline_errors envErr [] "predict.py" "missing.png" []).1 _ rfl,
    (analyze_image_catches_pipeline_errors envErr [] "predict.py" "missing.png" []).2⟩

/-- C3: With no image-path argument (`sys.argv = [prog]`), the process
prints exactly the JSON object `{"error": "No image path provided"}` and
exits with status 1; the output is a fixed literal, independent of the
model environment and label list, so the inference pipeline plays no
part in it. -/
theorem main_missing_argument_exact_output (env : Env) (class_names : List String)
    (prog : String) :
    mainProc env class_names [prog] =
      { stdout := ["\x7b\"error\": \"No image path provided\"\x7d"], exitCode := 1 } := by
  show ProcOutput.mk [dumps env.showFloat (.failure "No image path provided")] 1 = _
  simp only [dumps, jsonString]
  rfl

/-- C4: `load_model_with_fallback` tries tf.keras, then standalone keras,
then the custom-objects shim, each attempted exactly when the previous
one failed (the attempt list records this); the first success is
returned unchanged, and when all three fail the raised error wraps the
last underlying failure and names the attempted path. -/
theorem load_model_with_fallback_chain_spec {Model : Type} (env : LoadEnv Model)
    (model_path : String) :
    (∀ m, env.tfLoad model_path = .ok m →
      load_model_with_fallback env model_path = .ok m ∧
      loadAttempts env model_path = [1]) ∧
    (∀ e1 m, env.tfLoad model_path = .error e1 → env.kerasLoad model_path = .ok m →
      load_model_with_fallback env model_path = .ok m ∧
      loadAttempts env model_path = [1, 2]) ∧
    (∀ e1 e2 m, env.tfLoad model_path = .error e1 → env.kerasLoad model_path = .error e2 →
      env.tfLoadCustom model_path = .ok m →
      load_model_with_fallback env model_path = .ok m ∧
      loadAttempts env model_path = [1, 2, 3]) ∧
    (∀ e1 e2 e3, env.tfLoad model_path = .error e1 → env.kerasLoad model_path = .error e2 →
      env.tfLoadCustom model_path = .error e3 →
      load_model_with_fallback env model_path =
        .error ("Failed to load model '" ++ model_path ++
          "'. Tried tf.keras, keras and a fallback shim. Last error: " ++ e3) ∧
      loadAttempts env model_path = [1, 2, 3]) := by
  refine ⟨?_, ?_, ?_, ?_⟩
  · intro m h
    simp [load_model_with_fallback, loadAttempts, h]
  · intro e1 m h1 h2
    simp [load_model_with_fallback, loadAttempts, h1, h2]
  · intro e1 e2 m h1 h2 h3
    simp [load_model_with_fallback, loadAttempts, h1, h2, h3]
  · intro e1 e2 e3 h1 h2 h3
    simp [load_model_with_fallback, loadAttempts, h1, h2, h3]

/-- Witness for C4: in an environment where all three strategies fail the
result is the wrapping error naming the path and the last failure, and
in one where standalone keras succeeds its model is returned after two
attempts. -/
theorem load_model_with_fallback_chain_spec_witness :
    (load_model_with_fallback loadEnvAllFail "trained_model.h5" =
      .error ("Failed to load model 'trained_model.h5'. Tried tf.keras, keras and a " ++
        "fallback shim. Last error: Unknown layer: DTypePolicy") ∧
      loadAttempts loadEnvAllFail "trained_model.h5" = [1, 2, 3]) ∧
    (load_model_with_fallback loadEnvKerasOk "trained_model.h5" = .ok 42 ∧
      loadAttempts loadEnvKerasOk "trained_model.h5" = [1, 2]) := by
  constructor
  · have h := (load_model_with_fallback_chain_spec loadEnvAllFail "trained_model.h5").2.2.2
      "bad marker in HDF5 file" "No module named 'keras'" "Unknown layer: DTypePolicy"
      rfl rfl rfl
    refine ⟨?_, h.2⟩
    rw [h.1]
    rfl
  · exact (load_model_with_fallback_chain_spec loadEnvKerasOk "trained_model.h5").2.1
      "bad marker in HDF5 file" 42 rfl rfl

/-- C5 counterexample: a label list strictly shorter than the predictor's
output width does not by itself make the lookup fail — when the maximum
sits at an index inside the list, `analyze_image` still succeeds, so the
claim's antecedent does not imply an index error. -/
theorem short_label_list_can_still_succeed :
    List.length ["cat"] < List.length ([9/10, 1/10] : List ℚ) ∧
    envShort.predict tConst = .ok [9/10, 1/10] ∧
    analyze_image envShort ["cat"] "img.png" = .success "cat" (9/10) := by
  refine ⟨by norm_num, rfl, ?_⟩
  norm_num [analyze_image, analyzePipeline, preprocess_image, envShort, npArgmax, npMax,
    firstMax, listIndex]

/-- C5 (amended): when the argmax index is at or past the end of the label
list — the failing case of a label list shorter than the output width —
the lookup `class_names[class_id]` raises `IndexError`, which surfaces
as a generic error result (the JSON line is still produced), never an
uncaught crash. -/
theorem analyze_image_index_error_when_argmax_past_labels
    (env : Env) (class_names : List String) (image_path : String)
    (t : Tensor4) (preds : List ℚ) (i : Nat)
    (hpre : preprocess_image env image_path = .ok t)
    (hpred : env.predict t = .ok preds)
    (hidx : npArgmax preds = .ok i)
    (hshort : class_names.length ≤ i) :
    analyze_image env class_names image_path = .failure "list index out of range" := by
  unfold npArgmax at hidx
  cases hfm : firstMax preds with
  | none => rw [hfm] at hidx; dsimp only at hidx; exact absurd hidx (by simp)
  | some im =>
    rw [hfm] at hidx
    dsimp only at hidx
    simp only [Except.ok.injEq] at hidx
    subst hidx
    unfold analyze_image analyzePipeline
    rw [hpre]
    dsimp only
    rw [hpred]
    dsimp only
    unfold npArgmax npMax listIndex
    rw [hfm]
    dsimp only
    rw [List.get?_eq_none.mpr hshort]

/-- Witness for the amended C5: an empty label list with the width-2 tie
vector produces the index-error result. -/
theorem analyze_image_index_error_when_argmax_past_labels_witness :
    npArgmax [1/2, 1/2] = .ok 0 ∧
    List.length ([] : List String) ≤ 0 ∧
    analyze_image envTie [] "img.png" = .failure "list index out of range" := by
  have hidx : npArgmax [1/2, 1/2] = .ok 0 := by norm_num [npArgmax, firstMax]
  exact ⟨hidx, le_refl 0,
    analyze_image_index_error_when_argmax_past_labels envTie [] "img.png" tConst
      [1/2, 1/2] 0 rfl rfl hidx (Nat.le_refl 0)⟩

/-- C8 counterexample: the code takes the confidence as the raw maximum
output with no clamping, so a predictor whose output is not a probability
distribution yields a successful result whose confidence exceeds 1. -/
theorem confidence_can_exceed_unit_interval :
    analyze_image envOver ["cat"] "img.png" = .success "cat" (3/2) ∧
    ¬ ((3/2 : ℚ) ≤ 1) := by
  constructor
  · norm_num [analyze_image, analyzePipeline, preprocess_image, envOver, npArgmax, npMax,
      firstMax, listIndex]
  · norm_num

/-- C8 (amended): for every successful result, the confidence is one of
the predictor's output values; hence whenever the predictor's output
vector lies in [0, 1] entrywise (e.g. a softmax output), the returned
confidence lies in [0, 1]. -/
theorem confidence_in_unit_interval_of_bounded_preds
    (env : Env) (class_names : List String) (image_path : String)
    (t : Tensor4) (preds : List ℚ) (lbl : String) (conf : ℚ)
    (hpre : preprocess_image env image_path = .ok t)
    (hpred : env.predict t = .ok preds)
    (hbound : ∀ q ∈ preds, 0 ≤ q ∧ q ≤ 1)
    (hres : analyze_image env class_names image_path = .success lbl conf) :
    0 ≤ conf ∧ conf ≤ 1 := by
  obtain ⟨i, hfm, _⟩ := analyze_image_success_elim hpre hpred hres
  exact hbound conf (List.get?_mem (firstMax_get? hfm))

/-- Witness for the amended C8 at the `[0.1, 0.7, 0.2]` example. -/
theorem confidence_in_unit_interval_of_bounded_preds_witness :
    (∀ q ∈ ([1/10, 7/10, 2/10] : List ℚ), 0 ≤ q ∧ q ≤ 1) ∧
    analyze_image envDog ["cat", "dog", "fish"] "img.png" = .success "dog" (7/10) ∧
    (0 ≤ (7/10 : ℚ) ∧ (7/10 : ℚ) ≤ 1) := by
  have hbound : ∀ q ∈ ([1/10, 7/10, 2/10] : List ℚ), 0 ≤ q ∧ q ≤ 1 := by
    intro q hq
    rcases List.mem_cons.mp hq with h | hq
    · subst h; norm_num
    rcases List.mem_cons.mp hq with h | hq
    · subst h; norm_num
    rcases List.mem_cons.mp hq with h | hq
    · subst h; norm_num
    · simp at hq
  have hres : analyze_image envDog ["cat", "dog", "fish"] "img.png" = .success "dog" (7/10) := by
    norm_num [analyze_image, analyzePipeline, preprocess_image, envDog, npArgmax, npMax,
      firstMax, listIndex]
  exact ⟨hbound, hres,
    confidence_in_unit_interval_of_bounded_preds envDog _ _ tConst _ _ _ rfl rfl hbound hres⟩

/-- C10: the reported confidence is always the selected class's own score:
when prediction yields `preds` and the class index is `i` (the argmax),
a successful result's confidence equals `preds[i]`. -/
theorem analyze_image_confidence_at_class_index
    (env : Env) (class_names : List String) (image_path : String)
    (t : Tensor4) (preds : List ℚ) (i : Nat) (lbl : String) (conf : ℚ)
    (hpre : preprocess_image env image_path = .ok t)
    (hpred : env.predict t = .ok preds)
    (hidx : npArgmax preds = .ok i)
    (hres : analyze_image env class_names image_path = .success lbl conf) :
    preds.get? i = some conf := by
  obtain ⟨i', hfm, _⟩ := analyze_image_success_elim hpre hpred hres
  unfold npArgmax at hidx
  rw [hfm] at hidx
  dsimp only at hidx
  simp only [Except.ok.injEq] at hidx
  subst hidx
  exact firstMax_get? hfm

/-- Witness for C10: with output `[0.1, 0.7, 0.2]` the class index is 1 and
the confidence 0.7 is exactly the entry at index 1. -/
theorem analyze_image_confidence_at_class_index_witness :
    npArgmax [1/10, 7/10, 2/10] = .ok 1 ∧
    analyze_image envDog ["cat", "dog", "fish"] "img.png" = .success "dog" (7/10) ∧
    ([1/10, 7/10, 2/10] : List ℚ).get? 1 = some (7/10) := by
  have hidx : npArgmax [1/10, 7/10, 2/10] = .ok 1 := by norm_num [npArgmax, firstMax]
  have hres : analyze_image envDog ["cat", "dog", "fish"] "img.png" = .success "dog" (7/10) := by
    norm_num [analyze_image, analyzePipeline, preprocess_image, envDog, npArgmax, npMax,
      firstMax, listIndex]
  exact ⟨hidx, hres,
    analyze_image_confidence_at_class_index envDog _ _ tConst _ 1 _ _ rfl rfl hidx hres⟩

/-- The head of a filtered list is the first element of the original list
satisfying the predicate: everything strictly before it fails the test. -/
theorem filter_head_is_first_match {α : Type} (p : α → Bool) :
    ∀ {l : List α} {c : α} {rest : List α}, l.filter p = c :: rest →
    ∃ i, l.get? i = some c ∧ p c = true ∧
      ∀ j, j < i → ∀ x, l.get? j = some x → p x = false := by
  intro l
  induction l with
  | nil => intro c rest h; simp at h
  | cons a as ih =>
    intro c rest h
    rw [List.filter_cons] at h
    by_cases hp : p a
    · rw [if_pos hp] at h
      injection h with h1 _
      subst h1
      exact ⟨0, rfl, hp, fun j hj => absurd hj (Nat.not_lt_zero j)⟩
    · rw [if_neg hp] at h
      obtain ⟨i, hi, hpc, hfirst⟩ := ih h
      refine ⟨i + 1, hi, hpc, ?_⟩
      intro j hj x hx
      cases j with
      | zero =>
        simp only [List.get?] at hx
        cases hx
        exact Bool.eq_false_iff.mpr hp
      | succ k => exact hfirst k (Nat.lt_of_succ_lt_succ hj) x hx

/-- C6: model path resolution. If the configured path exists it is kept
and nothing is printed. Otherwise the directory listing is filtered for
names ending in `.h5` case-insensitively: if none matches, the original
(invalid) path is kept with no notice; if some match, the first match in
enumeration order (everything before it in the listing fails the
extension test) is substituted and a diagnostic notice is printed. -/
theorem resolveModelPath_spec (pathExists : String → Bool) (listing : List String)
    (configured : String) :
    (pathExists configured = true →
      resolveModelPath pathExists listing configured = (configured, [])) ∧
    (pathExists configured = false → listing.filter endsWithH5 = [] →
      resolveModelPath pathExists listing configured = (configured, [])) ∧
    (∀ c rest, pathExists configured = false → listing.filter endsWithH5 = c :: rest →
      resolveModelPath pathExists listing configured =
        (c, ["MODEL_PATH " ++ configured ++ " not found; using first .h5 candidate: " ++ c]) ∧
      ∃ i, listing.get? i = some c ∧ endsWithH5 c = true ∧
        ∀ j, j < i → ∀ x, listing.get? j = some x → endsWithH5 x = false) := by
  refine ⟨?_, ?_, ?_⟩
  · intro h
    simp [resolveModelPath, h]
  · intro h1 h2
    simp [resolveModelPath, h1, h2]
  · intro c rest h1 h2
    constructor
    · simp [resolveModelPath, h1, h2]
    · exact filter_head_is_first_match endsWithH5 h2

/-- Witness for C6: with a missing configured path and listing
`["README.md", "data.txt", "Model.H5", "b.h5"]`, the first
case-insensitive `.h5` match `Model.H5` is substituted and the notice
printed; index 2 is the first matching position. -/
theorem resolveModelPath_spec_witness :
    (fun _ : String => false) "trained_model.h5" = false ∧
    ["README.md", "data.txt", "Model.H5", "b.h5"].filter endsWithH5 =
      ["Model.H5", "b.h5"] ∧
    (resolveModelPath (fun _ => false) ["README.md", "data.txt", "Model.H5", "b.h5"]
        "trained_model.h5" =
      ("Model.H5",
        ["MODEL_PATH trained_model.h5 not found; using first .h5 candidate: Model.H5"]) ∧
    ∃ i, ["README.md", "data.txt", "Model.H5", "b.h5"].get? i = some "Model.H5" ∧
      endsWithH5 "Model.H5" = true ∧
      ∀ j, j < i → ∀ x, ["README.md", "data.txt", "Model.H5", "b.h5"].get? j = some x →
        endsWithH5 x = false) := by
  have h2 : ["README.md", "data.txt", "Model.H5", "b.h5"].filter endsWithH5 =
      ["Model.H5", "b.h5"] := by decide
  have h := (resolveModelPath_spec (fun _ => false)
    ["README.md", "data.txt", "Model.H5", "b.h5"] "trained_model.h5").2.2
    "Model.H5" ["b.h5"] rfl h2
  exact ⟨rfl, h2, by rw [h.1]; rfl, h.2⟩

/-- C7: preprocessing is deterministic — two image paths whose decoded
bytes agree produce identical tensors — and every produced tensor has a
leading batch dimension of size 1, 224 rows of 224 pixels of 3 channels,
and every value is an 8-bit channel value divided by exactly 255, hence
in [0, 1]. -/
theorem preprocess_image_deterministic_shape_range
    (env : Env) (p₁ p₂ : String)
    (hsame : env.openConvertRGB p₁ = env.openConvertRGB p₂) :
    preprocess_image env p₁ = preprocess_image env p₂ ∧
    ∀ t, preprocess_image env p₁ = .ok t →
      t.length = 1 ∧
      ∀ img3 ∈ t, img3.length = 224 ∧
        ∀ row ∈ img3, row.length = 224 ∧
          ∀ pix ∈ row, pix.length = 3 ∧
            ∀ v ∈ pix, (∃ b : Byte, v = (b.val : ℚ) / 255) ∧ 0 ≤ v ∧ v ≤ 1 := by
  constructor
  · unfold preprocess_image
    rw [hsame]
  · intro t ht
    unfold preprocess_image at ht
    cases himg : env.openConvertRGB p₁ with
    | error e => rw [himg] at ht; dsimp only at ht; exact absurd ht (by simp)
    | ok img =>
      rw [himg] at ht
      dsimp only at ht
      simp only [Except.ok.injEq] at ht
      subst ht
      refine ⟨rfl, ?_⟩
      intro img3 h3
      simp only [expandDims0, List.mem_singleton] at h3
      subst h3
      constructor
      · unfold normalize3 toArray
        rw [List.length_map, List.length_ofFn]
      · intro row hrow
        simp only [normalize3, toArray, List.mem_map] at hrow
        obtain ⟨y, hy, hrow⟩ := hrow
        subst hrow
        rw [List.mem_ofFn] at hy
        obtain ⟨i, hy⟩ := hy
        subst hy
        constructor
        · rw [List.length_map, List.length_ofFn]
        · intro pix hpix
          simp only [List.mem_map] at hpix
          obtain ⟨z, hz, hpix⟩ := hpix
          subst hpix
          rw [List.mem_ofFn] at hz
          obtain ⟨j, hz⟩ := hz
          subst hz
          constructor
          · rw [List.length_map, List.length_ofFn]
          · intro v hv
            simp only [List.mem_map] at hv
            obtain ⟨b, _, hv⟩ := hv
            subst hv
            refine ⟨⟨b, rfl⟩, ?_, ?_⟩
            · positivity
            · rw [div_le_one (by norm_num)]
              exact_mod_cast Nat.le_of_lt_succ b.isLt

/-- Witness for C7: in the constant-image environment the two runs agree
and the produced tensor satisfies the shape and range properties. -/
theorem preprocess_image_deterministic_shape_range_witness :
    envDog.openConvertRGB "a.png" = envDog.openConvertRGB "b.png" ∧
    (preprocess_image envDog "a.png" = preprocess_image envDog "b.png" ∧
    ∀ t, preprocess_image envDog "a.png" = .ok t →
      t.length = 1 ∧
      ∀ img3 ∈ t, img3.length = 224 ∧
        ∀ row ∈ img3, row.length = 224 ∧
          ∀ pix ∈ row, pix.length = 3 ∧
            ∀ v ∈ pix, (∃ b : Byte, v = (b.val : ℚ) / 255) ∧ 0 ≤ v ∧ v ≤ 1) :=
  ⟨rfl, preprocess_image_deterministic_shape_range envDog "a.png" "b.png" rfl⟩

/-- The middle part of Python's `strip` is the original list with a
whitespace prefix and a whitespace suffix removed. -/
theorem strip_infix_decomposition (l : List Char) :
    ∃ pre post,
      l = pre ++ ((l.dropWhile isPySpace).reverse.dropWhile isPySpace).reverse ++ post ∧
      (∀ c ∈ pre, isPySpace c = true) ∧ (∀ c ∈ post, isPySpace c = true) := by
  refine ⟨l.takeWhile isPySpace,
    ((l.dropWhile isPySpace).reverse.takeWhile isPySpace).reverse, ?_, ?_, ?_⟩
  · conv_lhs => rw [← List.takeWhile_append_dropWhile isPySpace l]
    rw [List.append_assoc]
    congr 1
    conv_lhs => rw [← List.reverse_reverse (l.dropWhile isPySpace),
      ← List.takeWhile_append_dropWhile isPySpace (l.dropWhile isPySpace).reverse]
    rw [List.reverse_append]
  · intro c hc
    exact List.mem_takeWhile_imp hc
  · intro c hc
    rw [List.mem_reverse] at hc
    exact List.mem_takeWhile_imp hc

/-- C9 counterexample: `line.strip()` also removes *leading* whitespace,
so on the file content `" cat\n"` the parsed label is `"cat"`, not the
`" cat"` that trailing-only stripping (the claim's wording) would give. -/
theorem parse_class_names_strips_leading_whitespace_too :
    parseClassNames " cat\n" = ["cat"] ∧
    parseClassNamesSpecTrailingOnly " cat\n" = [" cat"] ∧
    parseClassNames " cat\n" ≠ parseClassNamesSpecTrailingOnly " cat\n" := by
  refine ⟨by decide, by decide, by decide⟩

/-- C9 (amended): the label list is parsed one class name per line,
order-significant (line N of the file maps to output index N), with
leading *and* trailing whitespace stripped per line and nothing else
removed: each parsed name is the corresponding line minus a whitespace
prefix and a whitespace suffix. -/
theorem parse_class_names_spec (content : String) (n : Nat) (line : String)
    (h : (pyReadlines content).get? n = some line) :
    (parseClassNames content).get? n = some (pyStrip line) ∧
    ∃ pre post, line.data = pre ++ (pyStrip line).data ++ post ∧
      (∀ c ∈ pre, isPySpace c = true) ∧ (∀ c ∈ post, isPySpace c = true) := by
  constructor
  · unfold parseClassNames
    rw [List.get?_map, h]
    rfl
  · exact strip_infix_decomposition line.data

/-- Witness for the amended C9 on the content `"cat\n dog \n"`: line 1 is
`" dog \n"` and parses at index 1 to its stripped form. -/
theorem parse_class_names_spec_witness :
    (pyReadlines "cat\n dog \n").get? 1 = some " dog \n" ∧
    (parseClassNames "cat\n dog \n").get? 1 = some (pyStrip " dog \n") ∧
    ∃ pre post, " dog \n".data = pre ++ (pyStrip " dog \n").data ++ post ∧
      (∀ c ∈ pre, isPySpace c = true) ∧ (∀ c ∈ post, isPySpace c = true) := by
  have h : (pyReadlines "cat\n dog \n").get? 1 = some " dog \n" := by decide
  exact ⟨h, (parse_class_names_spec "cat\n dog \n" 1 " dog \n" h).1,
    (parse_class_names_spec "cat\n dog \n" 1 " dog \n" h).2⟩

end Predict
